import Mathlib

/-!
Verification of the QUANTS yield-curve engine specification.

This file gives a shallow embedding, over the rational numbers, of the
yield-curve construction core of the repository and settles the frozen
claims against it.  Python floats are modelled as rationals, Python
exceptions as a structured error value, and Python dictionaries as
association lists in insertion order.  The repository contains two
historical revisions of several files; where they differ, both are
embedded and named with a Work or Src suffix after their directory
(the Work revision lives under Work/Financial Engineering API Demo,
the Src revision under src/).

Modelling decisions, stated once here:
* Python list.sort and sorted are stable sorts; they are embedded as
  List.mergeSort, which Lean core proves stable.  numpy argsort (used
  by YieldCurve.__init__) is different: under its default quicksort
  numpy guarantees only an ascending-by-key permutation and documents
  the sort as not stable, so its tie order is unspecified.  Its
  executable stand-in argsortModel realizes one admissible outcome,
  and no theorem below relies on the tie order of equal tenors: every
  theorem about a constructed curve uses only the permutation and
  ascending-key guarantees, or hypotheses that rule ties out.
* scipy brentq is embedded by its observable contract: it raises a
  ValueError exactly when the objective has the same strict sign at
  both bracket ends, and otherwise reports a root; where a claim
  depends on the numeric value of the root the solved rate is
  characterised by the exact root equation rather than computed.
* Error values record the Python exception class name, the message
  template, and the list of registered names that the message
  enumerates via its f-string (empty when the message enumerates
  none).
-/

namespace Quants

/-- Embedding of a raised Python exception: the exception class, the
message template, and the names the message enumerates via f-string
interpolation (empty when the message interpolates no name list). -/
structure PyExc where
  cls : String
  msg : String
  listed : List String := []
  deriving Repr, DecidableEq

/-- Python truthiness of a string: empty strings are falsy. -/
def pyTruthyStr (s : String) : Bool := s ≠ ""

/-- Embedding of the Python idiom a or b on strings. -/
def pyOrStr (a b : String) : String := if a = "" then b else a

/-- Python truthiness of an optional string argument (None and the
empty string are falsy). -/
def pyTruthyOpt : Option String → Bool
  | none => false
  | some s => pyTruthyStr s

/-- ASCII upper-casing of one character, as Python str.upper acts on
the ASCII identifiers used for index codes and strategy names. -/
def upChar (c : Char) : Char :=
  if 'a' ≤ c ∧ c ≤ 'z' then Char.ofNat (c.toNat - 32) else c

/-- ASCII lower-casing of one character. -/
def downChar (c : Char) : Char :=
  if 'A' ≤ c ∧ c ≤ 'Z' then Char.ofNat (c.toNat + 32) else c

/-- Embedding of Python str.upper for the ASCII strings in scope. -/
def asciiUpper (s : String) : String := ⟨s.data.map upChar⟩

/-- Embedding of Python str.lower for the ASCII strings in scope. -/
def asciiLower (s : String) : String := ⟨s.data.map downChar⟩

/-- Embedding of the Python built-in round on rationals: round half
to even, as used by int(round(maturity * frequency)). -/
def pyRound (q : ℚ) : ℤ :=
  let f := ⌊q⌋
  let r := q - f
  if r < 1/2 then f
  else if 1/2 < r then f + 1
  else if Even f then f else f + 1

theorem pyRound_intCast (k : ℤ) : pyRound (k : ℚ) = k := by
  simp [pyRound]

/-- Embedding of numpy interp over a list of (x, y) knots: clamps to
the boundary values outside the knot range and interpolates linearly
between bracketing knots inside it. -/
def interpPts : List (ℚ × ℚ) → ℚ → ℚ
  | [], _ => 0
  | [(_, y)], _ => y
  | (x0, y0) :: (x1, y1) :: rest, t =>
    if t ≤ x0 then y0
    else if t ≤ x1 then y0 + (y1 - y0) * (t - x0) / (x1 - x0)
    else interpPts ((x1, y1) :: rest) t

/-- Embedding of numpy interp in the argument order of the source,
np.interp(target, x, y). -/
def npInterp (xs ys : List ℚ) (t : ℚ) : ℚ := interpPts (xs.zip ys) t

/-- SimpleCompounding.discount_factor from compounding/simple.py:
df(r, t) = 1 / (1 + r t). -/
def simpleDiscountFactor (rate tenor : ℚ) : ℚ := 1 / (1 + rate * tenor)

/-- Boolean order on pairs by their first (tenor) component, the sort
key used throughout the engine. -/
def tenorLe (a b : ℚ × ℚ) : Bool := a.1 ≤ b.1

theorem tenorLe_trans (a b c : ℚ × ℚ) :
    tenorLe a b = true → tenorLe b c = true → tenorLe a c = true := by
  simp only [tenorLe, decide_eq_true_eq]
  exact le_trans

theorem tenorLe_total (a b : ℚ × ℚ) : (tenorLe a b || tenorLe b a) = true := by
  simp only [tenorLe, Bool.or_eq_true, decide_eq_true_eq]
  exact le_total a.1 b.1

/-- The YieldCurve value object of core/curve.py: the stored tenor and
rate arrays after construction, plus the descriptive curve_type tag.
The bound strategy objects are passed to the operations that use them. -/
structure Curve where
  tenors : List ℚ
  rates : List ℚ
  curveType : String
  deriving Repr, DecidableEq

/-- Executable stand-in for the reordering np.argsort on the tenors
followed by fancy indexing of both arrays performs, acting on the
zipped (tenor, rate) pairs.  numpy's default quicksort guarantees
only that the result is a permutation with ascending keys
(argsortModel_perm and argsortModel_sorted below) and documents the
sort as not stable, so the relative order of equal tenors is
unspecified; this model realizes one admissible outcome and no
theorem in this file depends on which one. -/
def argsortModel (pairs : List (ℚ × ℚ)) : List (ℚ × ℚ) :=
  pairs.mergeSort tenorLe

/-- The permutation guarantee of np.argsort-based reordering. -/
theorem argsortModel_perm (pairs : List (ℚ × ℚ)) :
    (argsortModel pairs).Perm pairs :=
  List.mergeSort_perm pairs tenorLe

/-- The ascending-key guarantee of np.argsort-based reordering. -/
theorem argsortModel_sorted (pairs : List (ℚ × ℚ)) :
    List.Pairwise (fun a b => a.1 ≤ b.1) (argsortModel pairs) :=
  (List.sorted_mergeSort tenorLe_trans tenorLe_total pairs).imp
    (fun hab => by simpa [tenorLe] using hab)

/-- YieldCurve.__init__ from core/curve.py: checks equal lengths, then
strictly positive tenors, then reorders both arrays together by
ascending tenor (np.argsort on tenors followed by fancy indexing of
both arrays, modelled by argsortModel on the zipped pairs). -/
def mkYieldCurve (tenors rates : List ℚ) (curveType : String := "spot") :
    Except PyExc Curve :=
  if tenors.length ≠ rates.length then
    .error { cls := "ValueError", msg := "Tenors and rates must have the same length" }
  else if tenors.any (fun t => t ≤ 0) then
    .error { cls := "ValueError", msg := "Tenors must be positive" }
  else
    let pairs := argsortModel (tenors.zip rates)
    .ok { tenors := pairs.map Prod.fst, rates := pairs.map Prod.snd, curveType := curveType }

/-- The serialized form produced by YieldCurve.to_dict. -/
structure CurveDict where
  tenors : List ℚ
  rates : List ℚ
  curveType : String
  deriving Repr, DecidableEq

/-- YieldCurve.to_dict from core/curve.py. -/
def Curve.toDict (c : Curve) : CurveDict :=
  { tenors := c.tenors, rates := c.rates, curveType := c.curveType }

/-- Embedding of np.isclose with its default tolerances, as applied in
YieldCurve.spot_rate: isclose(a, b) holds when the absolute difference
is at most atol + rtol * abs(b) with rtol = 1e-5 and atol = 1e-8. -/
def ratIsClose (a b : ℚ) : Bool := |a - b| ≤ 1/100000000 + (1/100000) * |b|

/-- The match step of YieldCurve.spot_rate: the rate stored at the
first index whose tenor is np.isclose to the queried tenor, embedding
np.where(np.isclose(self.tenors, tenor))[0] followed by taking the
first hit. -/
def findCloseRate : List (ℚ × ℚ) → ℚ → Option ℚ
  | [], _ => none
  | (x, y) :: rest, t => if ratIsClose x t then some y else findCloseRate rest t

/-- YieldCurve.spot_rate from core/curve.py, parameterised by the
bound interpolation strategy (its interpolate and extrapolate
functions): rejects non-positive tenors, returns the stored rate at
the first np.isclose tenor match, and otherwise delegates to
extrapolate outside the stored range and to interpolate inside it. -/
def spotRate (interp extrap : List ℚ → List ℚ → ℚ → ℚ) (c : Curve) (t : ℚ) :
    Except PyExc ℚ :=
  if t ≤ 0 then .error { cls := "ValueError", msg := "Tenor must be positive" }
  else
    match findCloseRate (c.tenors.zip c.rates) t with
    | some r => .ok r
    | none =>
      if t < c.tenors.headD 0 ∨ t > c.tenors.getLastD 0 then
        .ok (extrap c.tenors c.rates t)
      else
        .ok (interp c.tenors c.rates t)

/-- LinearInterpolator.interpolate, identical in both revisions:
float(np.interp(target, x, y)). -/
def linearInterpolate (xs ys : List ℚ) (t : ℚ) : ℚ := npInterp xs ys t

/-- LinearInterpolator.extrapolate from the Work revision of
interpolation/linear.py: continues the slope of the nearest boundary
segment when at least two points are known, and returns the single
boundary value otherwise. -/
def linearExtrapolateWork (xs ys : List ℚ) (t : ℚ) : ℚ :=
  if t < xs.getD 0 0 then
    if 2 ≤ xs.length then
      let slope := (ys.getD 1 0 - ys.getD 0 0) / (xs.getD 1 0 - xs.getD 0 0)
      ys.getD 0 0 + slope * (t - xs.getD 0 0)
    else ys.getD 0 0
  else
    if 2 ≤ xs.length then
      let slope := (ys.getLastD 0 - ys.getD (ys.length - 2) 0) /
        (xs.getLastD 0 - xs.getD (xs.length - 2) 0)
      ys.getLastD 0 + slope * (t - xs.getLastD 0)
    else ys.getLastD 0

/-- LinearInterpolator.extrapolate from the Src revision of
interpolation/linear.py: flat continuation of the nearest boundary
rate. -/
def linearExtrapolateSrc (xs ys : List ℚ) (t : ℚ) : ℚ :=
  if t < xs.getD 0 0 then ys.getD 0 0 else ys.getLastD 0

/-- The linear extrapolation rule as the specification words it: the
linear continuation of the slope of the nearest boundary segment,
computed from the two nearest endpoint points. -/
def claimLinearExtrap (xs ys : List ℚ) (t : ℚ) : ℚ :=
  if t < xs.getD 0 0 then
    ys.getD 0 0 + ((ys.getD 1 0 - ys.getD 0 0) / (xs.getD 1 0 - xs.getD 0 0)) * (t - xs.getD 0 0)
  else
    ys.getLastD 0 + ((ys.getLastD 0 - ys.getD (ys.length - 2) 0) /
      (xs.getLastD 0 - xs.getD (xs.length - 2) 0)) * (t - xs.getLastD 0)

/-- The register method shared by the Work-revision registries,
parameterised by the key normalisation the registry applies (lower for
interpolation, compounding and bootstrapper, upper for day count, the
identity for the Src-revision bootstrapper registry).  Python dict
assignment keeps insertion order and overwrites an existing key. -/
def regRegister (norm : String → String) (reg : List (String × String))
    (name cls : String) : List (String × String) :=
  if (reg.lookup (norm name)).isSome then
    reg.map (fun p => if p.1 = norm name then (p.1, cls) else p)
  else reg ++ [(norm name, cls)]

/-- The stored key list of a registry, in insertion order, as
list(cls._registry.keys()) enumerates it. -/
def regKeys (reg : List (String × String)) : List String := reg.map Prod.fst

/-- The get method of the four Work-revision registries: normalises
the queried name, and on a miss raises a ValueError whose message
names the strategy kind, the queried name, and every registered
name. -/
def regGetNorm (kind : String) (norm : String → String)
    (reg : List (String × String)) (name : String) : Except PyExc String :=
  match reg.lookup (norm name) with
  | some cls => .ok cls
  | none =>
    .error
      { cls := "ValueError"
        msg := "Unknown " ++ kind ++ ": " ++ name ++ ". Available: "
        listed := regKeys reg }

/-- BootstrapperRegistry.get from the Src revision of
bootstrapping/registry.py: looks the name up without normalisation,
and its error message interpolates only the queried name, enumerating
no registered names. -/
def srcBootstrapperGet (reg : List (String × String)) (name : String) :
    Except PyExc String :=
  match reg.lookup name with
  | some cls => .ok cls
  | none =>
    .error
      { cls := "ValueError"
        msg := "Unknown bootstrapper: " ++ name
        listed := [] }

/-- The interpolator registry contents after module initialisation
(linear, cubic_spline, log_linear registered with lower-cased keys). -/
def interpolatorRegistry : List (String × String) :=
  [("linear", "LinearInterpolator"), ("cubic_spline", "CubicSplineInterpolator"),
   ("log_linear", "LogLinearInterpolator")]

/-- The day-count registry contents after module initialisation
(keys stored upper-cased). -/
def dayCountRegistry : List (String × String) :=
  [("ACT/365", "ACT365"), ("ACT/360", "ACT360"), ("30/360", "Thirty360")]

/-- The compounding registry contents after module initialisation. -/
def compoundingRegistry : List (String × String) :=
  [("simple", "SimpleCompounding"), ("continuous", "ContinuousCompounding")]

/-- The bootstrapper registry contents after module initialisation. -/
def bootstrapperRegistry : List (String × String) :=
  [("bond", "BondBootstrapper"), ("deposit", "DepositBootstrapper")]

/-- InterpolatorRegistry.get of the Work revision. -/
def interpolatorGet (name : String) : Except PyExc String :=
  regGetNorm "interpolator" asciiLower interpolatorRegistry name

/-- DayCountRegistry.get of the Work revision. -/
def dayCountGet (name : String) : Except PyExc String :=
  regGetNorm "day count" asciiUpper dayCountRegistry name

/-- CompoundingRegistry.get of the Work revision. -/
def compoundingGet (name : String) : Except PyExc String :=
  regGetNorm "compounding" asciiLower compoundingRegistry name

/-- A yield curve together with the strategy classes the factory
resolved and bound to it. -/
structure BoundCurve where
  curve : Curve
  interpolatorCls : String
  dayCountCls : String
  compoundingCls : String
  deriving Repr, DecidableEq

/-- CurveFactory.create_spot_curve from core/curve_factory.py:
resolves the three strategies from their registries, then constructs
the YieldCurve. -/
def createSpotCurve (tenors rates : List ℚ)
    (interpolation : String := "linear") (dayCount : String := "ACT/365")
    (compounding : String := "simple") : Except PyExc BoundCurve := do
  let i ← interpolatorGet interpolation
  let d ← dayCountGet dayCount
  let cp ← compoundingGet compounding
  let c ← mkYieldCurve tenors rates "spot"
  .ok { curve := c, interpolatorCls := i, dayCountCls := d, compoundingCls := cp }

/-- The InterestRateIndex static descriptor of
indexes/index_registry.py (the free-text description field is
omitted as it never feeds a computation). -/
structure InterestRateIndex where
  code : String
  name : String
  currency : String
  indexType : String
  dayCount : String := "ACT/360"
  compounding : String := "simple"
  fixingFrequency : String := "daily"
  deriving Repr, DecidableEq

/-- The IndexRegistry contents after initialize_defaults in
indexes/index_registry.py, keyed by the upper-cased code as register
stores it. -/
def indexRegistry : List (String × InterestRateIndex) :=
  [ ("SOFR",
     { code := "SOFR", name := "Secured Overnight Financing Rate", currency := "USD", indexType := "OIS" }),
    ("USD-LIBOR-1M",
     { code := "USD-LIBOR-1M", name := "US Dollar LIBOR 1 Month", currency := "USD", indexType := "IBOR", fixingFrequency := "monthly" }),
    ("USD-LIBOR-3M",
     { code := "USD-LIBOR-3M", name := "US Dollar LIBOR 3 Month", currency := "USD", indexType := "IBOR", fixingFrequency := "quarterly" }),
    ("USD-LIBOR-6M",
     { code := "USD-LIBOR-6M", name := "US Dollar LIBOR 6 Month", currency := "USD", indexType := "IBOR", fixingFrequency := "semi-annual" }),
    ("EURIBOR-1M",
     { code := "EURIBOR-1M", name := "Euro Interbank Offered Rate 1 Month", currency := "EUR", indexType := "IBOR", fixingFrequency := "monthly" }),
    ("EURIBOR-3M",
     { code := "EURIBOR-3M", name := "Euro Interbank Offered Rate 3 Month", currency := "EUR", indexType := "IBOR", fixingFrequency := "quarterly" }),
    ("EURIBOR-6M",
     { code := "EURIBOR-6M", name := "Euro Interbank Offered Rate 6 Month", currency := "EUR", indexType := "IBOR", fixingFrequency := "semi-annual" }),
    ("EONIA",
     { code := "EONIA", name := "Euro Overnight Index Average", currency := "EUR", indexType := "OIS" }),
    ("ESTR",
     { code := "ESTR", name := "Euro Short-Term Rate", currency := "EUR", indexType := "OIS" }),
    ("GBP-LIBOR-3M",
     { code := "GBP-LIBOR-3M", name := "British Pound LIBOR 3 Month", currency := "GBP", indexType := "IBOR", dayCount := "ACT/365", fixingFrequency := "quarterly" }),
    ("SONIA",
     { code := "SONIA", name := "Sterling Overnight Index Average", currency := "GBP", indexType := "OIS", dayCount := "ACT/365" }),
    ("USD-TREASURY",
     { code := "USD-TREASURY", name := "US Treasury Constant Maturity", currency := "USD", indexType := "TREASURY", dayCount := "ACT/365" }) ]

/-- IndexRegistry.get: upper-cases the queried code and looks it up,
returning None on a miss. -/
def indexRegistryGet (code : String) : Option InterestRateIndex :=
  indexRegistry.lookup (asciiUpper code)

/-- A raw index rate observation record as passed to the index
bootstrapper; every field is optional because the source reads each
with dict.get and a fallback. -/
structure Obs where
  index : Option String := none
  tenor : Option ℚ := none
  maturity : Option ℚ := none
  rate : Option ℚ := none
  deriving Repr, DecidableEq

/-- The tenor the index bootstrapper reads from a record:
item.get("tenor", item.get("maturity", 0)). -/
def obsTenor (o : Obs) : ℚ := o.tenor.getD (o.maturity.getD 0)

/-- The rate the index bootstrapper reads from a record:
item.get("rate", 0). -/
def obsRate (o : Obs) : ℚ := o.rate.getD 0

/-- The upper-cased index code the bootstrapper reads from a record:
item.get("index", "").upper(). -/
def obsIndexCode (o : Obs) : String := asciiUpper (o.index.getD "")

/-- A record after the validation and normalisation loop of
IndexBootstrapper.bootstrap. -/
structure NormObs where
  index : String
  indexDef : InterestRateIndex
  tenor : ℚ
  rate : ℚ
  deriving Repr, DecidableEq

/-- The validation and normalisation loop of
IndexBootstrapper.bootstrap: each record must name a registered index
and carry a strictly positive tenor; the first offending record
raises. -/
def normalizeObs : List Obs → Except PyExc (List NormObs)
  | [] => .ok []
  | o :: rest =>
    let code := obsIndexCode o
    match indexRegistryGet code with
    | none =>
      .error
        { cls := "ValueError"
          msg := "Unknown index: " ++ code ++ ". Available: "
          listed := indexRegistry.map Prod.fst }
    | some d =>
      if obsTenor o ≤ 0 then
        .error { cls := "ValueError", msg := "Invalid tenor for index " ++ code }
      else do
        let ns ← normalizeObs rest
        .ok ({ index := code, indexDef := d, tenor := obsTenor o, rate := obsRate o } :: ns)

/-- Boolean order on normalised records by tenor, the key of the
normalized_data.sort call. -/
def normTenorLe (a b : NormObs) : Bool := a.tenor ≤ b.tenor

/-- IndexBootstrapper.bootstrap up to its final array extraction:
rejects an empty list, normalises every record, and stable-sorts the
normalised records by tenor. -/
def indexBootstrapSorted (obs : List Obs) : Except PyExc (List NormObs) :=
  if obs.isEmpty then
    .error { cls := "ValueError", msg := "No index data provided for bootstrapping" }
  else do
    let ns ← normalizeObs obs
    .ok (ns.mergeSort normTenorLe)

/-- IndexBootstrapper.bootstrap from indexes/index_bootstrapper.py:
returns the tenor and rate arrays of the sorted normalised records,
treating each index rate directly as a spot rate. -/
def indexBootstrap (obs : List Obs) : Except PyExc (List ℚ × List ℚ) := do
  let ns ← indexBootstrapSorted obs
  .ok (ns.map NormObs.tenor, ns.map NormObs.rate)

/-- The in-place tagging create_from_index_rates performs on the
records of one index: rate_data["index"] = index_code. -/
def setObsIndex (code : String) (o : Obs) : Obs := { o with index := some code }

/-- The state of the caller-supplied mapping after
create_from_index_rates has walked it: every record of every index
now carries that index code in its index key. -/
def tagIndexRates (indexRates : List (String × List Obs)) : List (String × List Obs) :=
  indexRates.map (fun p => (p.1, p.2.map (setObsIndex p.1)))

/-- The priority component of the sort key used when a primary index
is designated: 0 for records of the primary index, 1 otherwise. -/
def prioOf (primaryUpper : String) (o : Obs) : ℕ :=
  if obsIndexCode o = primaryUpper then 0 else 1

/-- The lexicographic Boolean order on the pair key (priority, tenor)
used by the all_data.sort call of create_from_index_rates. -/
def prioLe (primaryUpper : String) (a b : Obs) : Bool :=
  prioOf primaryUpper a < prioOf primaryUpper b ∨
    (prioOf primaryUpper a = prioOf primaryUpper b ∧ obsTenor a ≤ obsTenor b)

/-- The flattened and, when a primary index is designated, priority-
sorted observation list create_from_index_rates hands to the index
bootstrapper. -/
def mergedObs (indexRates : List (String × List Obs)) (primary : Option String) :
    List Obs :=
  let allData := (tagIndexRates indexRates).map Prod.snd |>.flatten
  if pyTruthyOpt primary then
    allData.mergeSort (prioLe (asciiUpper (primary.getD "")))
  else allData

/-- IndexBootstrapper.create_from_index_rates: returns both the
post-call state of the caller-supplied mapping (whose records it
mutates in place) and the bootstrap result over the merged list. -/
def createFromIndexRates (indexRates : List (String × List Obs))
    (primary : Option String) :
    (List (String × List Obs)) × Except PyExc (List ℚ × List ℚ) :=
  (tagIndexRates indexRates, indexBootstrap (mergedObs indexRates primary))

/-- The convention-defaulting step of create_from_multiple_indexes:
when a primary index is designated and registered, the source runs
day_count = day_count or index_def.day_count (and likewise for
compounding) before building the curve. -/
def multiIndexConventions (primary : Option String)
    (dayCount compounding : String) : String × String :=
  if pyTruthyOpt primary then
    match indexRegistryGet (primary.getD "") with
    | some d => (pyOrStr dayCount d.dayCount, pyOrStr compounding d.compounding)
    | none => (dayCount, compounding)
  else (dayCount, compounding)

/-- IndexCurveFactory.create_from_multiple_indexes from
indexes/index_curve_factory.py, with the default arguments of its
signature: runs create_from_index_rates, applies the
day_count or index_def.day_count idiom only when a primary index is
designated and registered, and builds the curve through
create_spot_curve. -/
def createFromMultipleIndexes (indexRates : List (String × List Obs))
    (primary : Option String) (interpolation : String := "cubic_spline")
    (dayCount : String := "ACT/360") (compounding : String := "simple") :
    Except PyExc BoundCurve := do
  let (ts, rs) ← (createFromIndexRates indexRates primary).2
  let conv := multiIndexConventions primary dayCount compounding
  createSpotCurve ts rs interpolation conv.1 conv.2

/-- A bond record as accepted by the recursive (Src revision)
BondBootstrapper, with the default field values its dict.get calls
supply. -/
structure Bond where
  maturity : ℚ
  coupon : ℚ := 0
  price : ℚ
  frequency : ℕ := 2
  faceValue : ℚ := 100
  deriving Repr, DecidableEq

/-- Boolean order on bonds by maturity, the key of the sorted call in
BondBootstrapper.bootstrap. -/
def bondLe (a b : Bond) : Bool := a.maturity ≤ b.maturity

/-- BondBootstrapper._price_with_rate from the Src revision of
bootstrapping/bond_bootstrapper.py, with the default strategies of
its constructor resolved (simple compounding, linear interpolation):
prices the cash-flow schedule of round(maturity * frequency) periods,
discounting a cash flow before the maturity through np.interp over
the already-solved points when any exist, and through the candidate
rate otherwise. -/
def priceWithRate (maturity coupon rate : ℚ) (frequency : ℕ) (faceValue : ℚ)
    (knownTenors knownRates : List ℚ) : ℚ :=
  let totalPeriods := (pyRound (maturity * frequency)).toNat
  let couponPayment := faceValue * coupon / frequency
  ((List.range totalPeriods).map (fun (i : ℕ) =>
    let t : ℚ := ((i : ℚ) + 1) / (frequency : ℚ)
    let cf := couponPayment + (if i = totalPeriods - 1 then faceValue else 0)
    let df :=
      if t < maturity ∧ knownTenors ≠ [] then
        simpleDiscountFactor (npInterp knownTenors knownRates t) t
      else simpleDiscountFactor rate t
    cf * df)).sum

/-- The root-finding objective of BondBootstrapper._solve_spot_rate:
model price minus market price as a function of the candidate rate. -/
def bondObjective (maturity coupon marketPrice : ℚ) (frequency : ℕ)
    (faceValue : ℚ) (knownTenors knownRates : List ℚ) (r : ℚ) : ℚ :=
  priceWithRate maturity coupon r frequency faceValue knownTenors knownRates - marketPrice

/-- The bracket test of scipy brentq: it raises a ValueError exactly
when the objective takes the same strict sign at both bracket ends. -/
def bracketFails (f : ℚ → ℚ) (lo hi : ℚ) : Bool := f lo * f hi > 0

/-- The observable outcome of BondBootstrapper._solve_spot_rate,
recording which bracket produced a root or the exception the widened
retry let escape. -/
inductive SolveOutcome where
  | first (lo hi : ℚ)
  | retry (lo hi : ℚ)
  | failed (e : PyExc)
  deriving Repr, DecidableEq

/-- The ValueError scipy brentq raises when the bracket does not
straddle a sign change. -/
def brentqSignExc : PyExc :=
  { cls := "ValueError", msg := "f(a) and f(b) must have different signs" }

/-- BondBootstrapper._solve_spot_rate from the Src revision: brentq
over the bracket [-0.05, 0.5]; on a ValueError one retry over
[-0.1, 1.0]; a second ValueError escapes to the caller unchanged. -/
def solveSpotRateOutcome (f : ℚ → ℚ) : SolveOutcome :=
  if bracketFails f (-1/20) (1/2) then
    if bracketFails f (-1/10) 1 then .failed brentqSignExc
    else .retry (-1/10) 1
  else .first (-1/20) (1/2)

/-- The ValueError raised by BondBootstrapper.bootstrap on an empty
instrument list. -/
def bondBootstrapEmptyExc : PyExc :=
  { cls := "ValueError", msg := "No bond data provided for bootstrapping" }

/-- The junk bond getD returns beyond the list range; never consulted
within bounds. -/
def dummyBond : Bond := { maturity := 0, price := 0 }

/-- Characterisation of a successful run of the recursive
BondBootstrapper.bootstrap: the inputs are non-empty with positive
maturities, the output tenors are the maturities of the bonds in
stable-sorted maturity order, and each output rate is an exact root
of the pricing objective of its bond against the curve points solved
before it (the numeric root brentq reports is idealised to the exact
root). -/
def IsBootstrapResult (bonds : List Bond) (tenors rates : List ℚ) : Prop :=
  bonds ≠ [] ∧ (∀ b ∈ bonds, 0 < b.maturity) ∧
  tenors = (bonds.mergeSort bondLe).map Bond.maturity ∧
  rates.length = bonds.length ∧
  ∀ i, i < bonds.length →
    bondObjective ((bonds.mergeSort bondLe).getD i dummyBond).maturity
      ((bonds.mergeSort bondLe).getD i dummyBond).coupon
      ((bonds.mergeSort bondLe).getD i dummyBond).price
      ((bonds.mergeSort bondLe).getD i dummyBond).frequency
      ((bonds.mergeSort bondLe).getD i dummyBond).faceValue
      (tenors.take i) (rates.take i) (rates.getD i 0) = 0

/-- The pricing rule exactly as claim C1 words it: every cash flow at
a tenor strictly shorter than the maturity is discounted at a rate
interpolated from the previously bootstrapped points, and the final
cash flow, placed at the bond's own maturity, is discounted at the
unknown rate being solved for. -/
def priceClaimC1 (maturity coupon rate : ℚ) (frequency : ℕ) (faceValue : ℚ)
    (knownTenors knownRates : List ℚ) : ℚ :=
  let totalPeriods := (pyRound (maturity * frequency)).toNat
  let couponPayment := faceValue * coupon / frequency
  ((List.range totalPeriods).map (fun (i : ℕ) =>
    if i = totalPeriods - 1 then
      (couponPayment + faceValue) * simpleDiscountFactor rate maturity
    else
      let t : ℚ := ((i : ℚ) + 1) / (frequency : ℚ)
      couponPayment * simpleDiscountFactor (npInterp knownTenors knownRates t) t)).sum

/-- Forward sweep of the Thomas algorithm for a tridiagonal system,
carrying the previous modified coefficients: each row is
(sub-diagonal, diagonal, super-diagonal, right-hand side). -/
def triSweep (cp dp : ℚ) : List (ℚ × ℚ × ℚ × ℚ) → List (ℚ × ℚ)
  | [] => []
  | (a, b, c, d) :: rest =>
    let den := b - a * cp
    let c2 := c / den
    let d2 := (d - a * dp) / den
    (c2, d2) :: triSweep c2 d2 rest

/-- Back substitution of the Thomas algorithm over the reversed sweep
output, carrying the unknown just solved. -/
def triBack : List (ℚ × ℚ) → ℚ → List ℚ
  | [], _ => []
  | (c2, d2) :: rest, next =>
    let x := d2 - c2 * next
    x :: triBack rest x

/-- Solution of a tridiagonal linear system by the Thomas algorithm. -/
def triSolve (rows : List (ℚ × ℚ × ℚ × ℚ)) : List ℚ :=
  (triBack ((triSweep 0 0 rows).reverse) 0).reverse

/-- The interior equations of the natural cubic spline second-
derivative system over consecutive knot triples. -/
def splineRows : List (ℚ × ℚ) → List (ℚ × ℚ × ℚ × ℚ)
  | (x0, y0) :: (x1, y1) :: (x2, y2) :: rest =>
    let h0 := x1 - x0
    let h1 := x2 - x1
    (h0, 2 * (h0 + h1), h1, 6 * ((y2 - y1) / h1 - (y1 - y0) / h0)) ::
      splineRows ((x1, y1) :: (x2, y2) :: rest)
  | _ => []

/-- Second derivatives of the natural cubic spline through the given
knots: zero at both boundary knots (the natural boundary condition of
scipy CubicSpline with bc_type natural), interior values from the
standard tridiagonal system. -/
def naturalMs (xs ys : List ℚ) : List ℚ :=
  if xs.length < 2 then List.replicate xs.length 0
  else 0 :: triSolve (splineRows (xs.zip ys)) ++ [0]

/-- Value of the cubic polynomial piece of a spline on the segment
from (x0, y0) to (x1, y1) with second derivatives m0 and m1 there. -/
def segEval (x0 y0 m0 x1 y1 m1 t : ℚ) : ℚ :=
  let h := x1 - x0
  m0 * (x1 - t) ^ 3 / (6 * h) + m1 * (t - x0) ^ 3 / (6 * h) +
    (y0 / h - m0 * h / 6) * (x1 - t) + (y1 / h - m1 * h / 6) * (t - x0)

/-- First derivative of the cubic polynomial piece of segEval. -/
def segDeriv (x0 y0 m0 x1 y1 m1 t : ℚ) : ℚ :=
  let h := x1 - x0
  m1 * (t - x0) ^ 2 / (2 * h) - m0 * (x1 - t) ^ 2 / (2 * h) -
    (y0 / h - m0 * h / 6) + (y1 / h - m1 * h / 6)

/-- Piecewise evaluation of a spline given as (knot, value, second
derivative) triples: targets left of the second knot use the first
piece, targets beyond the last knot use the last piece (scipy PPoly
evaluates the boundary polynomial outside the knot range). -/
def splineEvalAux : List (ℚ × ℚ × ℚ) → ℚ → ℚ
  | [], _ => 0
  | [(_, y, _)], _ => y
  | (x0, y0, m0) :: (x1, y1, m1) :: rest, t =>
    if t ≤ x1 then segEval x0 y0 m0 x1 y1 m1 t
    else
      match rest with
      | [] => segEval x0 y0 m0 x1 y1 m1 t
      | _ :: _ => splineEvalAux ((x1, y1, m1) :: rest) t

/-- Piecewise first-derivative evaluation, with the same piece
selection as splineEvalAux (the second argument 1 of a scipy spline
call requests the first derivative). -/
def splineDerivAux : List (ℚ × ℚ × ℚ) → ℚ → ℚ
  | [], _ => 0
  | [_], _ => 0
  | (x0, y0, m0) :: (x1, y1, m1) :: rest, t =>
    if t ≤ x1 then segDeriv x0 y0 m0 x1 y1 m1 t
    else
      match rest with
      | [] => segDeriv x0 y0 m0 x1 y1 m1 t
      | _ :: _ => splineDerivAux ((x1, y1, m1) :: rest) t

/-- The (knot, value, second derivative) triples of the natural cubic
spline through the given points. -/
def splinePts (xs ys : List ℚ) : List (ℚ × ℚ × ℚ) :=
  List.zipWith3 (fun x y m => (x, y, m)) xs ys (naturalMs xs ys)

/-- Value of the natural cubic spline (scipy CubicSpline with
bc_type natural) through the given points, extended by its boundary
polynomials outside the knot range. -/
def splineEval (xs ys : List ℚ) (t : ℚ) : ℚ := splineEvalAux (splinePts xs ys) t

/-- First derivative of the natural cubic spline through the given
points. -/
def splineDeriv (xs ys : List ℚ) (t : ℚ) : ℚ := splineDerivAux (splinePts xs ys) t

/-- CubicSplineInterpolator.interpolate from the Work revision of
interpolation/cubic_spline.py: the raw spline value, with the
fewer-than-two-points guard of the source. -/
def cubicInterpolateWork (xs ys : List ℚ) (t : ℚ) : ℚ :=
  if xs.length < 2 then (if 0 < ys.length then ys.getD 0 0 else 0)
  else splineEval xs ys t

/-- CubicSplineInterpolator.extrapolate from the Work revision: its
body is identical to interpolate, so an out-of-range target receives
the raw boundary polynomial value of the spline. -/
def cubicExtrapolateWork (xs ys : List ℚ) (t : ℚ) : ℚ :=
  if xs.length < 2 then (if 0 < ys.length then ys.getD 0 0 else 0)
  else splineEval xs ys t

/-- CubicSplineInterpolator.extrapolate from the Src revision of
interpolation/cubic_spline.py: linear continuation whose slope is the
spline first derivative taken at tenors[1] below the range and at
tenors[-1] above it. -/
def cubicExtrapolateSrc (xs ys : List ℚ) (t : ℚ) : ℚ :=
  if t < xs.getD 0 0 then
    ys.getD 0 0 + splineDeriv xs ys (xs.getD 1 0) * (t - xs.getD 0 0)
  else
    ys.getLastD 0 + splineDeriv xs ys (xs.getLastD 0) * (t - xs.getLastD 0)

/-- The cubic extrapolation rule exactly as claim C6 words it: a
linear continuation from the nearest endpoint whose slope is the
spline first derivative evaluated at that nearest endpoint. -/
def claimCubicExtrap (xs ys : List ℚ) (t : ℚ) : ℚ :=
  if t < xs.getD 0 0 then
    ys.getD 0 0 + splineDeriv xs ys (xs.getD 0 0) * (t - xs.getD 0 0)
  else
    ys.getLastD 0 + splineDeriv xs ys (xs.getLastD 0) * (t - xs.getLastD 0)

@[simp] theorem except_ok_bind {e a b : Type} (x : a) (f : a → Except e b) :
    (Except.ok x >>= f : Except e b) = f x := rfl

@[simp] theorem except_error_bind {e a b : Type} (x : e) (f : a → Except e b) :
    (Except.error x >>= f : Except e b) = .error x := rfl

/-- C5 counterexample: the Src revision of LinearInterpolator, one of
the two implementations the claim covers, extrapolates flat.  On the
two-point curve (1, 0), (2, 1) at target 3 it returns the boundary
rate 1, while the slope continuation the claim asserts gives 2. -/
theorem linearExtrapolate_flat_cex :
    linearExtrapolateSrc [1, 2] [0, 1] 3 = 1 ∧
    claimLinearExtrap [1, 2] [0, 1] 3 = 2 ∧
    (1 : ℚ) ≠ 2 := by
  refine ⟨by norm_num [linearExtrapolateSrc], by norm_num [claimLinearExtrap], by norm_num⟩

/-- C5, amended: with at least two points, the Work revision of
LinearInterpolator.extrapolate returns the linear continuation of the
nearest boundary segment computed from the two nearest endpoint
points, as the claim asserts; the Src revision instead returns a flat
value equal to one of the two boundary rates. -/
theorem linearExtrapolate_variants (xs ys : List ℚ) (t : ℚ)
    (h2 : 2 ≤ xs.length) :
    linearExtrapolateWork xs ys t = claimLinearExtrap xs ys t ∧
    (linearExtrapolateSrc xs ys t = ys.getD 0 0 ∨
      linearExtrapolateSrc xs ys t = ys.getLastD 0) := by
  constructor
  · unfold linearExtrapolateWork claimLinearExtrap
    split <;> simp [h2]
  · unfold linearExtrapolateSrc
    split
    · exact Or.inl rfl
    · exact Or.inr rfl

/-- C5 witness: the amended statement evaluated on the concrete
two-point curve (1, 0), (2, 1) at target 3. -/
theorem linearExtrapolate_variants_witness :
    2 ≤ ([1, 2] : List ℚ).length ∧
    (linearExtrapolateWork [1, 2] [0, 1] 3 = claimLinearExtrap [1, 2] [0, 1] 3 ∧
      (linearExtrapolateSrc [1, 2] [0, 1] 3 = ([0, 1] : List ℚ).getD 0 0 ∨
        linearExtrapolateSrc [1, 2] [0, 1] 3 = ([0, 1] : List ℚ).getLastD 0)) :=
  ⟨by norm_num, linearExtrapolate_variants [1, 2] [0, 1] 3 (by norm_num)⟩

/-- C6 counterexample: on the three-point curve (1, 0), (2, 1),
(3, 0) the natural spline has boundary slopes 3/2 at the first knot
and -3/2 at the last.  The Work revision of CubicSplineInterpolator
extrapolates at 4 with the raw boundary polynomial, returning -1
instead of the claimed linear continuation -3/2; the Src revision
extrapolates at 0 with the slope taken at the second knot (value 0),
returning 0 instead of the claimed -3/2. -/
theorem cubicExtrapolate_cex :
    cubicExtrapolateWork [1, 2, 3] [0, 1, 0] 4 = -1 ∧
    claimCubicExtrap [1, 2, 3] [0, 1, 0] 4 = -3/2 ∧
    cubicExtrapolateSrc [1, 2, 3] [0, 1, 0] 0 = 0 ∧
    claimCubicExtrap [1, 2, 3] [0, 1, 0] 0 = -3/2 ∧
    ((-1 : ℚ) ≠ -3/2 ∧ (0 : ℚ) ≠ -3/2) := by
  refine ⟨?_, ?_, ?_, ?_, by norm_num, by norm_num⟩ <;>
    norm_num [cubicExtrapolateWork, cubicExtrapolateSrc, claimCubicExtrap, splineEval,
      splineDeriv, splinePts, naturalMs, triSolve, splineRows, triSweep, triBack,
      List.zipWith3, splineEvalAux, splineDerivAux, segEval, segDeriv]

/-- C6, amended: for a target above the knot range the Src revision
of CubicSplineInterpolator.extrapolate does return the linear
continuation from the nearest endpoint with the spline first
derivative there, as the claim asserts; below the range it takes the
derivative at the second knot rather than the first, and the Work
revision returns the raw boundary polynomial value, per the
counterexample. -/
theorem cubicExtrapolateSrc_above_range (xs ys : List ℚ) (t : ℚ)
    (hends : xs.getD 0 0 ≤ xs.getLastD 0) (ht : xs.getLastD 0 < t) :
    cubicExtrapolateSrc xs ys t = claimCubicExtrap xs ys t := by
  unfold cubicExtrapolateSrc claimCubicExtrap
  have hnot : ¬ t < xs.getD 0 0 := not_lt.mpr (le_trans hends (le_of_lt ht))
  rw [if_neg hnot, if_neg hnot]

/-- C6 witness: the amended statement evaluated on the three-point
curve (1, 0), (2, 1), (3, 0) at target 4. -/
theorem cubicExtrapolateSrc_above_range_witness :
    ([1, 2, 3] : List ℚ).getD 0 0 ≤ ([1, 2, 3] : List ℚ).getLastD 0 ∧
    ([1, 2, 3] : List ℚ).getLastD 0 < 4 ∧
    cubicExtrapolateSrc [1, 2, 3] [0, 1, 0] 4 = claimCubicExtrap [1, 2, 3] [0, 1, 0] 4 :=
  ⟨by norm_num, by norm_num,
    cubicExtrapolateSrc_above_range [1, 2, 3] [0, 1, 0] 4 (by norm_num) (by norm_num)⟩

theorem lookup_map_update (k v : String) :
    ∀ (l : List (String × String)), (l.lookup k).isSome →
      ((l.map (fun p => if p.1 = k then (p.1, v) else p)).lookup k) = some v
  | [], h => by simp [List.lookup] at h
  | (a, b) :: rest, h => by
    by_cases hk : a = k
    · subst hk
      rw [List.map_cons, if_pos rfl]
      simp [List.lookup]
    · have hbeq : (k == a) = false := beq_eq_false_iff_ne.mpr (Ne.symm hk)
      have hr : (rest.lookup k).isSome := by
        simp only [List.lookup, hbeq] at h
        exact h
      rw [List.map_cons, if_neg hk]
      simp only [List.lookup, hbeq]
      exact lookup_map_update k v rest hr

theorem lookup_append_of_none (k : String) (l2 : List (String × String)) :
    ∀ l1 : List (String × String), l1.lookup k = none →
      (l1 ++ l2).lookup k = l2.lookup k
  | [], _ => rfl
  | (a, b) :: rest, h => by
    by_cases hk : k = a
    · subst hk
      simp [List.lookup] at h
    · have hbeq : (k == a) = false := beq_eq_false_iff_ne.mpr hk
      have hr : rest.lookup k = none := by
        simp only [List.lookup, hbeq] at h
        exact h
      rw [List.cons_append]
      simp only [List.lookup, hbeq]
      exact lookup_append_of_none k l2 rest hr

theorem lookup_regRegister (norm : String → String) (reg : List (String × String))
    (name cls : String) :
    ((regRegister norm reg name cls).lookup (norm name)) = some cls := by
  unfold regRegister
  by_cases h : (reg.lookup (norm name)).isSome
  · rw [if_pos h]
    exact lookup_map_update (norm name) cls reg h
  · rw [if_neg h]
    have hn : reg.lookup (norm name) = none := Option.not_isSome_iff_eq_none.mp h
    rw [lookup_append_of_none (norm name) _ reg hn]
    simp [List.lookup]

/-- C8 counterexample: the Src revision of BootstrapperRegistry, one
of the registries the claim covers, is case-sensitive and its miss
error enumerates no registered names: with bond and deposit
registered, get of BOND fails even though bond is registered under
the lower-cased spelling, and the error lists nothing. -/
theorem bootstrapperRegistry_case_cex :
    srcBootstrapperGet bootstrapperRegistry "BOND" =
      .error { cls := "ValueError", msg := "Unknown bootstrapper: BOND", listed := [] } ∧
    asciiLower "BOND" = "bond" ∧
    "bond" ∈ regKeys bootstrapperRegistry ∧
    "bond" ∉ ([] : List String) := by
  refine ⟨?_, by decide, by decide, by simp⟩
  simp [srcBootstrapperGet, bootstrapperRegistry, List.lookup]

/-- C8, amended: the Work-revision registries normalise keys on both
register and get (lower-case for interpolation, compounding and
bootstrapper, upper-case for day count), so lookup succeeds for any
spelling with the same normalisation and a miss raises a ValueError
enumerating every registered name; the Src-revision
BootstrapperRegistry is case-sensitive and its miss error enumerates
no names. -/
theorem registry_lookup_behavior (kind : String) (norm : String → String)
    (reg : List (String × String)) (name cls variant : String)
    (hv : norm variant = norm name) :
    regGetNorm kind norm (regRegister norm reg name cls) variant = .ok cls ∧
    (reg.lookup (norm name) = none →
      regGetNorm kind norm reg name =
        .error
          { cls := "ValueError"
            msg := "Unknown " ++ kind ++ ": " ++ name ++ ". Available: "
            listed := regKeys reg }) ∧
    (∀ n : String, reg.lookup n = none →
      srcBootstrapperGet reg n =
        .error
          { cls := "ValueError"
            msg := "Unknown bootstrapper: " ++ n
            listed := [] }) := by
  refine ⟨?_, ?_, ?_⟩
  · unfold regGetNorm
    rw [hv, lookup_regRegister]
  · intro h
    unfold regGetNorm
    rw [h]
  · intro n h
    unfold srcBootstrapperGet
    rw [h]

/-- C8 witness: the amended statement evaluated on the interpolator
registry, registering linear and querying the spelling LINEAR. -/
theorem registry_lookup_behavior_witness :
    asciiLower "LINEAR" = asciiLower "linear" ∧
    regGetNorm "interpolator" asciiLower
      (regRegister asciiLower interpolatorRegistry "linear" "LinearInterpolator") "LINEAR" =
      .ok "LinearInterpolator" :=
  ⟨by decide,
    (registry_lookup_behavior "interpolator" asciiLower interpolatorRegistry
      "linear" "LinearInterpolator" "LINEAR" (by decide)).1⟩

/-- The pricing objective of a bond so overpriced (market price 1000
against cash flows of at most 110) that no rate in either brentq
bracket reprices it: the objective is negative across both brackets. -/
def overpricedObjective : ℚ → ℚ := bondObjective 2 (1/20) 1000 1 100 [] []

/-- C2 counterexample: on the overpriced bond both brackets fail and
the exception that escapes _solve_spot_rate is the generic scipy
ValueError, the same exception class the bootstrapper uses for
validation failures such as an empty bond list; no distinguishable
ConvergenceError class exists anywhere in the code. -/
theorem solveSpotRate_error_kind_cex :
    solveSpotRateOutcome overpricedObjective = .failed brentqSignExc ∧
    brentqSignExc.cls = "ValueError" ∧
    brentqSignExc.cls = bondBootstrapEmptyExc.cls := by
  refine ⟨?_, rfl, rfl⟩
  have h1 : bracketFails overpricedObjective (-1/20) (1/2) = true := by
    norm_num [bracketFails, overpricedObjective, bondObjective, priceWithRate, pyRound,
      simpleDiscountFactor, show Int.toNat 2 = 2 from rfl, List.range_succ]
  have h2 : bracketFails overpricedObjective (-1/10) 1 = true := by
    norm_num [bracketFails, overpricedObjective, bondObjective, priceWithRate, pyRound,
      simpleDiscountFactor, show Int.toNat 2 = 2 from rfl, List.range_succ]
  unfold solveSpotRateOutcome
  rw [h1, h2]
  simp

/-- C2, amended: _solve_spot_rate first tries the bracket
[-0.05, 0.5]; if that bracket fails it retries exactly once with the
widened bracket [-0.1, 1.0]; only if the retry also fails does an
exception escape, and that exception is the generic ValueError of
scipy brentq, the same exception class as the validation errors of
the engine, not a distinct ConvergenceError; no rate value is ever
produced on the failure path, so there is no silent fallback to a
default rate. -/
theorem solveSpotRate_bracket_retry (f : ℚ → ℚ) :
    (bracketFails f (-1/20) (1/2) = false →
      solveSpotRateOutcome f = .first (-1/20) (1/2)) ∧
    (bracketFails f (-1/20) (1/2) = true → bracketFails f (-1/10) 1 = false →
      solveSpotRateOutcome f = .retry (-1/10) 1) ∧
    (bracketFails f (-1/20) (1/2) = true → bracketFails f (-1/10) 1 = true →
      solveSpotRateOutcome f = .failed brentqSignExc ∧
      brentqSignExc.cls = bondBootstrapEmptyExc.cls ∧
      ∀ lo hi : ℚ, solveSpotRateOutcome f ≠ .first lo hi ∧
        solveSpotRateOutcome f ≠ .retry lo hi) := by
  refine ⟨?_, ?_, ?_⟩
  · intro h1
    unfold solveSpotRateOutcome
    rw [h1]
    simp
  · intro h1 h2
    unfold solveSpotRateOutcome
    rw [h1, h2]
    simp
  · intro h1 h2
    refine ⟨?_, rfl, ?_⟩
    · unfold solveSpotRateOutcome
      rw [h1, h2]
      simp
    · intro lo hi
      constructor <;>
        · unfold solveSpotRateOutcome
          rw [h1, h2]
          simp

/-- C2 witness: the amended statement evaluated on the overpriced
bond objective, for which both brackets fail. -/
theorem solveSpotRate_bracket_retry_witness :
    bracketFails overpricedObjective (-1/20) (1/2) = true ∧
    bracketFails overpricedObjective (-1/10) 1 = true ∧
    (solveSpotRateOutcome overpricedObjective = .failed brentqSignExc ∧
      brentqSignExc.cls = bondBootstrapEmptyExc.cls ∧
      ∀ lo hi : ℚ, solveSpotRateOutcome overpricedObjective ≠ .first lo hi ∧
        solveSpotRateOutcome overpricedObjective ≠ .retry lo hi) := by
  have h1 : bracketFails overpricedObjective (-1/20) (1/2) = true := by
    norm_num [bracketFails, overpricedObjective, bondObjective, priceWithRate, pyRound,
      simpleDiscountFactor, show Int.toNat 2 = 2 from rfl, List.range_succ]
  have h2 : bracketFails overpricedObjective (-1/10) 1 = true := by
    norm_num [bracketFails, overpricedObjective, bondObjective, priceWithRate, pyRound,
      simpleDiscountFactor, show Int.toNat 2 = 2 from rfl, List.range_succ]
  exact ⟨h1, h2, (solveSpotRate_bracket_retry overpricedObjective).2.2 h1 h2⟩

theorem mkYieldCurve_ok_spec (T R : List ℚ) (ct : String) (c : Curve)
    (h : mkYieldCurve T R ct = .ok c) :
    T.length = R.length ∧ (∀ t ∈ T, 0 < t) ∧
    c.tenors = (argsortModel (T.zip R)).map Prod.fst ∧
    c.rates = (argsortModel (T.zip R)).map Prod.snd ∧
    c.curveType = ct := by
  unfold mkYieldCurve at h
  by_cases h1 : T.length ≠ R.length
  · rw [if_pos h1] at h
    cases h
  · rw [if_neg h1] at h
    by_cases h2 : T.any (fun t => t ≤ 0) = true
    · rw [if_pos h2] at h
      cases h
    · rw [if_neg h2] at h
      have hc := (Except.ok.injEq _ _).mp h
      refine ⟨not_ne_iff.mp h1, ?_, ?_, ?_, ?_⟩
      · intro t ht
        have := (List.any_eq_false.mp (Bool.not_eq_true _ ▸ h2)) t ht
        simpa using not_le.mp (by simpa using this)
      · rw [← hc]
      · rw [← hc]
      · rw [← hc]

theorem ratIsClose_self (t : ℚ) : ratIsClose t t = true := by
  simp only [ratIsClose, sub_self, abs_zero, decide_eq_true_eq]
  positivity

theorem findCloseRate_first (t r : ℚ) :
    ∀ l : List (ℚ × ℚ), (t, r) ∈ l →
      List.Pairwise (fun a b => ratIsClose a.1 b.1 = false) l →
      findCloseRate l t = some r
  | [], h, _ => by cases h
  | (a, b) :: rest, h, hp => by
    rcases List.mem_cons.mp h with heq | hmem
    · injection heq with ha hb
      subst ha
      subst hb
      simp [findCloseRate, ratIsClose_self]
    · have ha : ratIsClose a t = false := (List.pairwise_cons.mp hp).1 (t, r) hmem
      simp only [findCloseRate, ha]
      simp only [Bool.false_eq_true, if_false]
      exact findCloseRate_first t r rest hmem (List.pairwise_cons.mp hp).2

/-- C4 counterexample: the tenors 1 and 1.000001 are distinct but
within the np.isclose tolerance, so the curve built from them with
rates 0 and 1 answers spot_rate(1.000001) from the first matching
stored tenor and returns 0, not the aligned rate 1 (and 0 is not
within 1e-9 of 1). -/
theorem spotRate_tolerance_cex :
    mkYieldCurve [1, 1000001/1000000] [0, 1] =
      .ok { tenors := [1, 1000001/1000000], rates := [0, 1], curveType := "spot" } ∧
    ((1000001/1000000 : ℚ), (1 : ℚ)) ∈ ([(1 : ℚ), 1000001/1000000].zip [(0 : ℚ), 1]) ∧
    spotRate linearInterpolate linearExtrapolateWork
      { tenors := [1, 1000001/1000000], rates := [0, 1], curveType := "spot" }
      (1000001/1000000) = .ok 0 ∧
    ¬ |(0 : ℚ) - 1| ≤ 1/1000000000 := by
  refine ⟨?_, by norm_num, ?_, by norm_num⟩
  · norm_num [mkYieldCurve, argsortModel, List.mergeSort, tenorLe]
  · norm_num [spotRate, findCloseRate, ratIsClose, abs_of_nonneg]

/-- C4, amended: when every pair of distinct stored tenors is
separated by more than the np.isclose tolerance, spot_rate at a
stored tenor returns exactly the rate stored alongside it, whatever
interpolation strategy is bound (the match branch consults no
interpolator), and spot_rate raises a ValueError on any tenor at or
below zero.  With near-coincident stored tenors the first tolerance
match wins instead, per the counterexample. -/
theorem spotRate_exact_match (interp extrap : List ℚ → List ℚ → ℚ → ℚ)
    (T R : List ℚ) (c : Curve) (hc : mkYieldCurve T R = .ok c)
    (hsep : List.Pairwise (fun a b => ratIsClose a b = false) c.tenors) :
    (∀ p : ℚ × ℚ, p ∈ c.tenors.zip c.rates → spotRate interp extrap c p.1 = .ok p.2) ∧
    (∀ t : ℚ, t ≤ 0 →
      spotRate interp extrap c t =
        .error { cls := "ValueError", msg := "Tenor must be positive" }) := by
  obtain ⟨hlen, hpos, htens, hrats, -⟩ := mkYieldCurve_ok_spec T R "spot" c hc
  constructor
  · rintro ⟨t, r⟩ hp
    have hmemt : t ∈ c.tenors := by
      have := List.of_mem_zip hp
      exact this.1
    have htpos : 0 < t := by
      have hperm : c.tenors.Perm ((T.zip R).map Prod.fst) := by
        rw [htens]
        exact (argsortModel_perm (T.zip R)).map Prod.fst
      have hmem2 : t ∈ (T.zip R).map Prod.fst := hperm.mem_iff.mp hmemt
      have : (T.zip R).map Prod.fst = T := List.map_fst_zip T R (le_of_eq hlen)
      exact hpos t (this ▸ hmem2)
    have hzip : List.Pairwise (fun a b : ℚ × ℚ => ratIsClose a.1 b.1 = false)
        (c.tenors.zip c.rates) := by
      have hfst : (c.tenors.zip c.rates).map Prod.fst = c.tenors := by
        apply List.map_fst_zip
        rw [htens, hrats]
        simp
      have := hfst ▸ hsep
      exact List.pairwise_map.mp this
    have hfind : findCloseRate (c.tenors.zip c.rates) t = some r :=
      findCloseRate_first t r _ hp hzip
    unfold spotRate
    rw [if_neg (not_le.mpr htpos), hfind]
  · intro t ht
    unfold spotRate
    rw [if_pos ht]

/-- C4 witness: the amended statement evaluated on the well-separated
curve with tenors (1, 2) and rates (1/100, 1/50). -/
theorem spotRate_exact_match_witness :
    mkYieldCurve [1, 2] [1/100, 1/50] =
      .ok { tenors := [1, 2], rates := [1/100, 1/50], curveType := "spot" } ∧
    List.Pairwise (fun a b => ratIsClose a b = false)
      ({ tenors := [1, 2], rates := [1/100, 1/50], curveType := "spot" } : Curve).tenors ∧
    spotRate linearInterpolate linearExtrapolateWork
      { tenors := [1, 2], rates := [1/100, 1/50], curveType := "spot" } 1 = .ok (1/100) ∧
    spotRate linearInterpolate linearExtrapolateWork
      { tenors := [1, 2], rates := [1/100, 1/50], curveType := "spot" } (-1) =
      .error { cls := "ValueError", msg := "Tenor must be positive" } := by
  have hok : mkYieldCurve [1, 2] [1/100, 1/50] =
      .ok { tenors := [1, 2], rates := [1/100, 1/50], curveType := "spot" } := by
    norm_num [mkYieldCurve, argsortModel, List.mergeSort, tenorLe]
  have hsep : List.Pairwise (fun a b => ratIsClose a b = false)
      ({ tenors := [1, 2], rates := [1/100, 1/50], curveType := "spot" } : Curve).tenors := by
    norm_num [ratIsClose]
  have h := spotRate_exact_match linearInterpolate linearExtrapolateWork
    [1, 2] [1/100, 1/50] _ hok hsep
  exact ⟨hok, hsep, h.1 (1, 1/100) (by norm_num), h.2 (-1) (by norm_num)⟩

theorem eq_of_map_eq_self {α : Type} (f : α → α) :
    ∀ l : List α, l.map f = l → ∀ x ∈ l, f x = x
  | [], _, x, hx => by cases hx
  | a :: rest, h, x, hx => by
    rw [List.map_cons] at h
    injection h with h1 h2
    rcases List.mem_cons.mp hx with rfl | hmem
    · exact h1
    · exact eq_of_map_eq_self f rest h2 x hmem

/-- C10: create_from_index_rates writes the source index code into
the index key of every caller-supplied record (the records are
mutated in place, so the caller observes the tagging), and whenever
some record did not already carry its index code the caller-supplied
mapping is observably changed by the call. -/
theorem createFromIndexRates_mutates_input (indexRates : List (String × List Obs))
    (primary : Option String) :
    (∀ p ∈ (createFromIndexRates indexRates primary).1, ∀ o ∈ p.2, o.index = some p.1) ∧
    ((∃ p ∈ indexRates, ∃ o ∈ p.2, o.index ≠ some p.1) →
      (createFromIndexRates indexRates primary).1 ≠ indexRates) := by
  constructor
  · intro p hp o ho
    obtain ⟨q, hq, rfl⟩ := List.mem_map.mp hp
    obtain ⟨o', ho', rfl⟩ := List.mem_map.mp ho
    rfl
  · rintro ⟨p, hp, o, ho, hne⟩ heq
    have hgp := eq_of_map_eq_self _ indexRates heq p hp
    have h2 : p.2.map (setObsIndex p.1) = p.2 := congrArg Prod.snd hgp
    have := eq_of_map_eq_self _ p.2 h2 o ho
    exact hne (congrArg Obs.index this.symm)

/-- C10 witness: the mutation statement evaluated on a mapping whose
single SOFR record does not yet carry an index key. -/
theorem createFromIndexRates_mutates_input_witness :
    (∃ p ∈ [("SOFR", [({ tenor := some (1/4), rate := some (1/20) } : Obs)])],
      ∃ o ∈ p.2, o.index ≠ some p.1) ∧
    (createFromIndexRates
        [("SOFR", [({ tenor := some (1/4), rate := some (1/20) } : Obs)])] none).1 ≠
      [("SOFR", [({ tenor := some (1/4), rate := some (1/20) } : Obs)])] := by
  have hex : ∃ p ∈ [("SOFR", [({ tenor := some (1/4), rate := some (1/20) } : Obs)])],
      ∃ o ∈ p.2, o.index ≠ some p.1 := by
    refine ⟨_, List.mem_singleton_self _, { tenor := some (1/4), rate := some (1/20) },
      List.mem_singleton_self _, by simp⟩
  exact ⟨hex, (createFromIndexRates_mutates_input _ none).2 hex⟩

/-- C9, code bug: create_from_multiple_indexes declares
day_count="ACT/360" and compounding="simple" as defaults, so the
day_count or index_def.day_count idiom can never pick up the primary
index's conventions when the caller does not override them.  With
primary index SONIA (registered day count ACT/365) and no overrides,
the constructed curve is bound to the ACT/360 day count, not SONIA's
ACT/365 default that the docstring and the claim promise. -/
theorem createFromMultipleIndexes_ignores_primary_defaults :
    createFromMultipleIndexes [("SONIA", [{ tenor := some 1, rate := some (1/20) }])]
      (some "SONIA") =
      .ok { curve := { tenors := [1], rates := [1/20], curveType := "spot" }
            interpolatorCls := "CubicSplineInterpolator"
            dayCountCls := "ACT360"
            compoundingCls := "SimpleCompounding" } ∧
    (indexRegistryGet "SONIA").map InterestRateIndex.dayCount = some "ACT/365" ∧
    dayCountGet "ACT/365" = .ok "ACT365" ∧
    ("ACT360" : String) ≠ "ACT365" := by
  have hmerged : mergedObs [("SONIA", [{ tenor := some 1, rate := some (1/20) }])]
      (some "SONIA") =
      [{ index := some "SONIA", tenor := some 1, maturity := none, rate := some (1/20) }] := by
    simp only [mergedObs, tagIndexRates, List.map_cons, List.map_nil, setObsIndex,
      pyTruthyOpt, pyTruthyStr, List.flatten, List.append_nil]
    rw [if_pos (by decide)]
    exact List.mergeSort_singleton ..
  have hnorm : normalizeObs
      [{ index := some "SONIA", tenor := some 1, maturity := none, rate := some (1/20) }] =
      .ok [{ index := "SONIA"
             indexDef := { code := "SONIA", name := "Sterling Overnight Index Average",
                           currency := "GBP", indexType := "OIS", dayCount := "ACT/365" }
             tenor := 1
             rate := 1/20 }] := by
    have hcode : obsIndexCode
        ({ index := some "SONIA", tenor := some 1, maturity := none,
           rate := some (1/20) } : Obs) = "SONIA" := by decide
    have hreg : indexRegistryGet "SONIA" = some
        { code := "SONIA", name := "Sterling Overnight Index Average", currency := "GBP",
          indexType := "OIS", dayCount := "ACT/365" } := by decide
    simp only [normalizeObs, hcode, hreg]
    rw [if_neg (by norm_num [obsTenor])]
    rfl
  have hboot : indexBootstrap
      [{ index := some "SONIA", tenor := some 1, maturity := none, rate := some (1/20) }] =
      .ok ([1], [1/20]) := by
    simp only [indexBootstrap, indexBootstrapSorted, hnorm, except_ok_bind]
    rw [if_neg (by decide)]
    simp only [except_ok_bind, List.mergeSort_singleton, List.map_cons, List.map_nil]
  have hfact : (createFromIndexRates
      [("SONIA", [{ tenor := some 1, rate := some (1/20) }])] (some "SONIA")).2 =
      .ok ([1], [1/20]) := by
    show indexBootstrap (mergedObs _ _) = _
    rw [hmerged]
    exact hboot
  have hi : interpolatorGet "cubic_spline" = .ok "CubicSplineInterpolator" := by
    simp only [interpolatorGet, regGetNorm]
    rw [show interpolatorRegistry.lookup (asciiLower "cubic_spline") =
      some "CubicSplineInterpolator" from by decide]
  have hd : dayCountGet "ACT/360" = .ok "ACT360" := by
    simp only [dayCountGet, regGetNorm]
    rw [show dayCountRegistry.lookup (asciiUpper "ACT/360") = some "ACT360" from by decide]
  have hcp : compoundingGet "simple" = .ok "SimpleCompounding" := by
    simp only [compoundingGet, regGetNorm]
    rw [show compoundingRegistry.lookup (asciiLower "simple") =
      some "SimpleCompounding" from by decide]
  have hmk : mkYieldCurve [1] [1/20] "spot" =
      .ok { tenors := [1], rates := [1/20], curveType := "spot" } := by
    unfold mkYieldCurve
    rw [if_neg (by norm_num), if_neg (by norm_num)]
    simp [argsortModel, List.mergeSort_singleton]
  have hcsc : createSpotCurve [1] [1/20] "cubic_spline" "ACT/360" "simple" =
      .ok { curve := { tenors := [1], rates := [1/20], curveType := "spot" }
            interpolatorCls := "CubicSplineInterpolator"
            dayCountCls := "ACT360"
            compoundingCls := "SimpleCompounding" } := by
    unfold createSpotCurve
    rw [hi]
    simp only [except_ok_bind]
    rw [hd]
    simp only [except_ok_bind]
    rw [hcp]
    simp only [except_ok_bind]
    rw [hmk]
    simp only [except_ok_bind]
  have hconv : multiIndexConventions (some "SONIA") "ACT/360" "simple" =
      ("ACT/360", "simple") := by decide
  have hd365 : dayCountGet "ACT/365" = .ok "ACT365" := by
    simp only [dayCountGet, regGetNorm]
    rw [show dayCountRegistry.lookup (asciiUpper "ACT/365") = some "ACT365" from by decide]
  refine ⟨?_, by decide, hd365, by decide⟩
  unfold createFromMultipleIndexes
  rw [hfact]
  simp only [except_ok_bind]
  rw [hconv]
  exact hcsc

/-- The normalised record the validation loop produces for a record
whose index code is registered. -/
def normObsOf (o : Obs) : NormObs :=
  { index := obsIndexCode o
    indexDef := (indexRegistryGet (obsIndexCode o)).getD
      { code := "", name := "", currency := "", indexType := "" }
    tenor := obsTenor o
    rate := obsRate o }

/-- The priority of a normalised record relative to an upper-cased
primary index code: 0 for records of the primary index, 1 for the
rest. -/
def normPrio (primaryUpper : String) (n : NormObs) : ℕ :=
  if n.index = primaryUpper then 0 else 1

theorem normTenorLe_trans (a b c : NormObs) :
    normTenorLe a b = true → normTenorLe b c = true → normTenorLe a c = true := by
  simp only [normTenorLe, decide_eq_true_eq]
  exact le_trans

theorem normTenorLe_total (a b : NormObs) :
    (normTenorLe a b || normTenorLe b a) = true := by
  simp only [normTenorLe, Bool.or_eq_true, decide_eq_true_eq]
  exact le_total a.tenor b.tenor

theorem prioLe_trans (pU : String) (a b c : Obs) :
    prioLe pU a b = true → prioLe pU b c = true → prioLe pU a c = true := by
  simp only [prioLe, decide_eq_true_eq]
  rintro (h1 | ⟨h1, h1t⟩) (h2 | ⟨h2, h2t⟩)
  · exact Or.inl (lt_trans h1 h2)
  · exact Or.inl (h2 ▸ h1)
  · exact Or.inl (h1 ▸ h2)
  · exact Or.inr ⟨h1.trans h2, le_trans h1t h2t⟩

theorem prioLe_total (pU : String) (a b : Obs) :
    (prioLe pU a b || prioLe pU b a) = true := by
  simp only [prioLe, Bool.or_eq_true, decide_eq_true_eq]
  rcases lt_trichotomy (prioOf pU a) (prioOf pU b) with h | h | h
  · exact Or.inl (Or.inl h)
  · rcases le_total (obsTenor a) (obsTenor b) with ht | ht
    · exact Or.inl (Or.inr ⟨h, ht⟩)
    · exact Or.inr (Or.inr ⟨h.symm, ht⟩)
  · exact Or.inr (Or.inl h)

theorem normalizeObs_registered :
    ∀ l : List Obs, (∀ o ∈ l, (indexRegistryGet (obsIndexCode o)).isSome) →
      (∀ o ∈ l, 0 < obsTenor o) →
      normalizeObs l = .ok (l.map normObsOf)
  | [], _, _ => rfl
  | o :: rest, h2, h3 => by
    obtain ⟨d, hd⟩ := Option.isSome_iff_exists.mp (h2 o (List.mem_cons_self o rest))
    have hrec := normalizeObs_registered rest
      (fun x hx => h2 x (List.mem_cons_of_mem o hx))
      (fun x hx => h3 x (List.mem_cons_of_mem o hx))
    unfold normalizeObs
    simp only [hd]
    rw [if_neg (not_le.mpr (h3 o (List.mem_cons_self o rest)))]
    rw [hrec]
    simp only [except_ok_bind, List.map_cons, normObsOf, hd, Option.getD_some]

theorem mergeSort_filter_key {α : Type} (le : α → α → Bool)
    (htrans : ∀ a b c : α, le a b = true → le b c = true → le a c = true)
    (htotal : ∀ a b : α, (le a b || le b a) = true)
    (p : α → Bool) (hp : ∀ a b : α, p a = true → p b = true → le a b = true)
    (l : List α) :
    (l.mergeSort le).filter p = l.filter p := by
  have hpw : (l.filter p).Pairwise (fun a b => le a b = true) :=
    List.pairwise_of_forall_mem_list (fun a ha b hb =>
      hp a b (List.of_mem_filter ha) (List.of_mem_filter hb))
  have hsub : (l.filter p).Sublist (l.mergeSort le) :=
    List.sublist_mergeSort htrans htotal hpw (List.filter_sublist l)
  have hsub2 : (l.filter p).Sublist ((l.mergeSort le).filter p) := by
    have h := hsub.filter p
    rwa [List.filter_eq_self.mpr (fun a ha => List.of_mem_filter ha)] at h
  have hperm : ((l.mergeSort le).filter p).Perm (l.filter p) :=
    (List.mergeSort_perm l le).filter p
  exact (hsub2.eq_of_length hperm.length_eq.symm).symm

theorem sorted_merged_primary_first (pU : String) (l : List NormObs)
    (hl : l.Pairwise (fun a b => normPrio pU a < normPrio pU b ∨
      (normPrio pU a = normPrio pU b ∧ a.tenor ≤ b.tenor))) (v : ℚ) :
    ((l.mergeSort normTenorLe).filter (fun n => n.tenor = v)).Pairwise
      (fun a b => normPrio pU a ≤ normPrio pU b) := by
  rw [mergeSort_filter_key normTenorLe normTenorLe_trans normTenorLe_total
    (fun n => n.tenor = v)
    (by
      intro a b ha hb
      simp only [decide_eq_true_eq] at ha hb
      simp only [normTenorLe, decide_eq_true_eq, ha, hb, le_refl]) l]
  exact (hl.filter (fun n => n.tenor = v)).imp
    (fun hab => hab.elim le_of_lt (fun hx => le_of_eq hx.1))

/-- C7, amended: for a non-empty observation list whose index codes
are all registered and whose tenors are all strictly positive
(non-positive tenors raise instead, per the counterexample), the
index bootstrapper returns exactly the input (tenor, rate) pairs as a
permutation sorted ascending by tenor, with every rate unchanged; and
for a merged multi-index list with a designated primary index, the
sorted normalised records at any fixed tenor carry the primary index
first. -/
theorem indexBootstrap_passthrough
    (obs : List Obs) (indexRates : List (String × List Obs)) (primaryCode : String)
    (h1 : obs ≠ [])
    (h2 : ∀ o ∈ obs, (indexRegistryGet (obsIndexCode o)).isSome)
    (h3 : ∀ o ∈ obs, 0 < obsTenor o)
    (g2 : ∀ o ∈ mergedObs indexRates (some primaryCode),
      (indexRegistryGet (obsIndexCode o)).isSome)
    (g3 : ∀ o ∈ mergedObs indexRates (some primaryCode), 0 < obsTenor o)
    (gp : primaryCode ≠ "") :
    (∃ ns : List NormObs, indexBootstrapSorted obs = .ok ns ∧
      indexBootstrap obs = .ok (ns.map NormObs.tenor, ns.map NormObs.rate) ∧
      (ns.map (fun n => (n.tenor, n.rate))).Perm
        (obs.map (fun o => (obsTenor o, obsRate o))) ∧
      List.Pairwise (· ≤ ·) (ns.map NormObs.tenor)) ∧
    (mergedObs indexRates (some primaryCode) ≠ [] →
      ∃ ms : List NormObs,
        indexBootstrapSorted (mergedObs indexRates (some primaryCode)) = .ok ms ∧
        ∀ v : ℚ, (ms.filter (fun n => n.tenor = v)).Pairwise
          (fun a b => normPrio (asciiUpper primaryCode) a ≤
            normPrio (asciiUpper primaryCode) b)) := by
  constructor
  · have hn := normalizeObs_registered obs h2 h3
    have hne : ¬ obs.isEmpty = true := by simp [List.isEmpty_iff, h1]
    have hsorted : indexBootstrapSorted obs =
        .ok ((obs.map normObsOf).mergeSort normTenorLe) := by
      unfold indexBootstrapSorted
      rw [if_neg hne, hn]
      simp only [except_ok_bind]
    refine ⟨(obs.map normObsOf).mergeSort normTenorLe, hsorted, ?_, ?_, ?_⟩
    · unfold indexBootstrap
      rw [hsorted]
      simp only [except_ok_bind]
    · have hperm := (List.mergeSort_perm (obs.map normObsOf) normTenorLe).map
        (fun n : NormObs => (n.tenor, n.rate))
      rw [List.map_map] at hperm
      exact hperm
    · rw [List.pairwise_map]
      exact (List.sorted_mergeSort normTenorLe_trans normTenorLe_total
        (obs.map normObsOf)).imp (fun hab => by simpa [normTenorLe] using hab)
  · intro hm
    have hpy : pyTruthyOpt (some primaryCode) = true := by
      simp [pyTruthyOpt, pyTruthyStr, gp]
    have hmdef : mergedObs indexRates (some primaryCode) =
        ((tagIndexRates indexRates).map Prod.snd).flatten.mergeSort
          (prioLe (asciiUpper primaryCode)) := by
      unfold mergedObs
      rw [if_pos hpy]
      rfl
    have hsortedA : (mergedObs indexRates (some primaryCode)).Pairwise
        (fun a b => prioLe (asciiUpper primaryCode) a b = true) := by
      rw [hmdef]
      exact List.sorted_mergeSort (prioLe_trans _) (prioLe_total _) _
    have hnorm2 := normalizeObs_registered (mergedObs indexRates (some primaryCode)) g2 g3
    have hms : indexBootstrapSorted (mergedObs indexRates (some primaryCode)) =
        .ok (((mergedObs indexRates (some primaryCode)).map normObsOf).mergeSort
          normTenorLe) := by
      unfold indexBootstrapSorted
      rw [if_neg (by simp [List.isEmpty_iff, hm]), hnorm2]
      simp only [except_ok_bind]
    refine ⟨_, hms, ?_⟩
    intro v
    apply sorted_merged_primary_first
    exact hsortedA.map normObsOf (fun a b hab => by simpa [prioLe] using hab)

/-- C7 counterexample: an observation for the registered index SOFR
whose tenor is 0 makes the index bootstrapper raise a ValueError; it
does not return the input (tenor, rate) pairs, so the claim needs the
strictly-positive-tenor restriction. -/
theorem indexBootstrap_nonpositive_tenor_cex :
    indexBootstrap [{ index := some "SOFR", tenor := some 0, rate := some (1/20) }] =
      .error { cls := "ValueError", msg := "Invalid tenor for index " ++ "SOFR" } ∧
    ∀ res : List ℚ × List ℚ,
      indexBootstrap [{ index := some "SOFR", tenor := some 0, rate := some (1/20) }] ≠
        .ok res := by
  have hcode : obsIndexCode
      ({ index := some "SOFR", tenor := some 0, maturity := none,
         rate := some (1/20) } : Obs) = "SOFR" := by decide
  have hreg : indexRegistryGet "SOFR" = some
      { code := "SOFR", name := "Secured Overnight Financing Rate", currency := "USD",
        indexType := "OIS" } := by decide
  have herr : normalizeObs
      [{ index := some "SOFR", tenor := some 0, rate := some (1/20) }] =
      .error { cls := "ValueError", msg := "Invalid tenor for index " ++ "SOFR" } := by
    simp only [normalizeObs, hcode, hreg]
    rw [if_pos (by norm_num [obsTenor])]
  have hmain : indexBootstrap
      [{ index := some "SOFR", tenor := some 0, rate := some (1/20) }] =
      .error { cls := "ValueError", msg := "Invalid tenor for index " ++ "SOFR" } := by
    simp only [indexBootstrap, indexBootstrapSorted, herr, except_error_bind]
    rw [if_neg (by decide)]
    simp only [herr, except_error_bind]
  refine ⟨hmain, ?_⟩
  intro res h
  rw [hmain] at h
  exact Except.noConfusion h

/-- The two-observation list used to witness the index-bootstrapper
statement: two SOFR fixings supplied in descending tenor order. -/
def wObs : List Obs :=
  [{ index := some "SOFR", tenor := some (1/2), rate := some (3/100) },
   { index := some "SOFR", tenor := some (1/4), rate := some (1/20) }]

/-- The two-index mapping used to witness the primary-index ordering
statement: SOFR and ESTR fixings at the same tenor, ESTR primary. -/
def wIndexRates : List (String × List Obs) :=
  [("SOFR", [{ tenor := some (1/4), rate := some (1/20) }]),
   ("ESTR", [{ tenor := some (1/4), rate := some (3/50) }])]

/-- C7 witness: the amended statement evaluated on the concrete
observation list and the concrete two-index mapping with primary
index ESTR. -/
theorem indexBootstrap_passthrough_witness :
    wObs ≠ [] ∧
    (∀ o ∈ wObs, (indexRegistryGet (obsIndexCode o)).isSome) ∧
    (∀ o ∈ wObs, 0 < obsTenor o) ∧
    (∀ o ∈ mergedObs wIndexRates (some "ESTR"),
      (indexRegistryGet (obsIndexCode o)).isSome) ∧
    (∀ o ∈ mergedObs wIndexRates (some "ESTR"), 0 < obsTenor o) ∧
    ("ESTR" : String) ≠ "" ∧
    ((∃ ns : List NormObs, indexBootstrapSorted wObs = .ok ns ∧
        indexBootstrap wObs = .ok (ns.map NormObs.tenor, ns.map NormObs.rate) ∧
        (ns.map (fun n => (n.tenor, n.rate))).Perm
          (wObs.map (fun o => (obsTenor o, obsRate o))) ∧
        List.Pairwise (· ≤ ·) (ns.map NormObs.tenor)) ∧
      (mergedObs wIndexRates (some "ESTR") ≠ [] →
        ∃ ms : List NormObs,
          indexBootstrapSorted (mergedObs wIndexRates (some "ESTR")) = .ok ms ∧
          ∀ v : ℚ, (ms.filter (fun n => n.tenor = v)).Pairwise
            (fun a b => normPrio (asciiUpper "ESTR") a ≤
              normPrio (asciiUpper "ESTR") b))) := by
  have hmg : mergedObs wIndexRates (some "ESTR") =
      [{ index := some "ESTR", tenor := some (1/4), maturity := none, rate := some (3/50) },
       { index := some "SOFR", tenor := some (1/4), maturity := none,
         rate := some (1/20) }] := by
    have hle1 : prioLe (asciiUpper "ESTR")
        { index := some "SOFR", tenor := some 4⁻¹, maturity := none,
          rate := some 20⁻¹ }
        { index := some "ESTR", tenor := some 4⁻¹, maturity := none,
          rate := some (3/50) } = false := by decide
    simp only [wIndexRates, mergedObs, tagIndexRates, List.map_cons, List.map_nil,
      setObsIndex, pyTruthyOpt, pyTruthyStr, List.flatten, List.append_nil]
    rw [if_pos (by decide)]
    simp [List.mergeSort, hle1]
  have h2 : ∀ o ∈ wObs, (indexRegistryGet (obsIndexCode o)).isSome := by
    intro o ho
    rcases List.mem_cons.mp ho with rfl | ho2
    · decide
    · rcases List.mem_singleton.mp ho2 with rfl
      decide
  have h3 : ∀ o ∈ wObs, 0 < obsTenor o := by
    intro o ho
    rcases List.mem_cons.mp ho with rfl | ho2
    · norm_num [obsTenor]
    · rcases List.mem_singleton.mp ho2 with rfl
      norm_num [obsTenor]
  have g2 : ∀ o ∈ mergedObs wIndexRates (some "ESTR"),
      (indexRegistryGet (obsIndexCode o)).isSome := by
    rw [hmg]
    intro o ho
    rcases List.mem_cons.mp ho with rfl | ho2
    · decide
    · rcases List.mem_singleton.mp ho2 with rfl
      decide
  have g3 : ∀ o ∈ mergedObs wIndexRates (some "ESTR"), 0 < obsTenor o := by
    rw [hmg]
    intro o ho
    rcases List.mem_cons.mp ho with rfl | ho2
    · norm_num [obsTenor]
    · rcases List.mem_singleton.mp ho2 with rfl
      norm_num [obsTenor]
  have h1 : wObs ≠ [] := by simp [wObs]
  exact ⟨h1, h2, h3, g2, g3, by decide,
    indexBootstrap_passthrough wObs wIndexRates "ESTR" h1 h2 h3 g2 g3 (by decide)⟩

theorem bondLe_trans (a b c : Bond) :
    bondLe a b = true → bondLe b c = true → bondLe a c = true := by
  simp only [bondLe, decide_eq_true_eq]
  exact le_trans

theorem bondLe_total (a b : Bond) : (bondLe a b || bondLe b a) = true := by
  simp only [bondLe, Bool.or_eq_true, decide_eq_true_eq]
  exact le_total a.maturity b.maturity

theorem priceWithRate_eq_claim (maturity coupon rate : ℚ) (frequency k : ℕ)
    (faceValue : ℚ) (kT kR : List ℚ)
    (hk : 0 < k) (hf : 0 < frequency)
    (hm : maturity * (frequency : ℚ) = (k : ℚ)) (hkT : kT ≠ []) :
    priceWithRate maturity coupon rate frequency faceValue kT kR =
    priceClaimC1 maturity coupon rate frequency faceValue kT kR := by
  have hfq : (0 : ℚ) < (frequency : ℚ) := by exact_mod_cast hf
  have hmat : maturity = (k : ℚ) / (frequency : ℚ) := by
    field_simp
    linarith [hm]
  have htp : (pyRound (maturity * (frequency : ℚ))).toNat = k := by
    rw [hm, show ((k : ℚ)) = (((k : ℤ) : ℚ)) by push_cast; ring, pyRound_intCast]
    simp
  unfold priceWithRate priceClaimC1
  rw [htp]
  apply congrArg List.sum
  apply List.map_congr_left
  intro i hi
  have hik : i < k := List.mem_range.mp hi
  by_cases hlast : i = k - 1
  · have ht : ((i : ℚ) + 1) / (frequency : ℚ) = maturity := by
      rw [hmat, hlast]
      congr 1
      push_cast [Nat.cast_sub (Nat.one_le_iff_ne_zero.mpr (Nat.pos_iff_ne_zero.mp hk))]
      ring
    dsimp only
    rw [if_pos hlast, if_pos hlast, ht]
    rw [if_neg (fun hcon => absurd hcon.1 (lt_irrefl maturity))]
  · have hi1 : i + 1 < k := by omega
    have ht : ((i : ℚ) + 1) / (frequency : ℚ) < maturity := by
      rw [hmat]
      apply div_lt_div_of_pos_right ?_ hfq
      exact_mod_cast hi1
    dsimp only
    rw [if_neg hlast, if_neg hlast, if_pos (And.intro ht hkT)]
    ring

/-- C1, amended: a successful run of the recursive bond bootstrapper
processes bonds in increasing maturity order (the returned tenors are
sorted ascending), and for every bond after the first whose maturity
is an integral positive number of coupon periods, the solved rate
makes the claimed discounted cash-flow identity hold exactly: cash
flows before the maturity discounted at rates interpolated from the
previously bootstrapped points, the final cash flow at the bond's own
maturity discounted at the solved rate, summing to the market price.
The first bond (no previous points) discounts every cash flow at the
unknown rate itself, and a bond whose maturity times frequency is not
integral pays its final cash flow at round(maturity*frequency)/
frequency rather than at its maturity, per the counterexample. -/
theorem bondBootstrap_recursive_pricing (bonds : List Bond) (tenors rates : List ℚ)
    (h : IsBootstrapResult bonds tenors rates) :
    List.Pairwise (· ≤ ·) tenors ∧
    ∀ i, i < bonds.length → 0 < i →
      ∀ k : ℕ, 0 < k →
        ((bonds.mergeSort bondLe).getD i dummyBond).maturity *
          (((bonds.mergeSort bondLe).getD i dummyBond).frequency : ℚ) = (k : ℚ) →
        0 < ((bonds.mergeSort bondLe).getD i dummyBond).frequency →
        priceClaimC1 ((bonds.mergeSort bondLe).getD i dummyBond).maturity
          ((bonds.mergeSort bondLe).getD i dummyBond).coupon (rates.getD i 0)
          ((bonds.mergeSort bondLe).getD i dummyBond).frequency
          ((bonds.mergeSort bondLe).getD i dummyBond).faceValue
          (tenors.take i) (rates.take i) =
        ((bonds.mergeSort bondLe).getD i dummyBond).price := by
  obtain ⟨hne, hpos, htens, hlen, hroot⟩ := h
  constructor
  · rw [htens, List.pairwise_map]
    exact (List.sorted_mergeSort bondLe_trans bondLe_total bonds).imp
      (fun hab => by simpa [bondLe] using hab)
  · intro i hi h0 k hk hmk hf
    have hobj := hroot i hi
    have htnil : tenors ≠ [] := by
      rw [htens]
      intro hcon
      rw [List.map_eq_nil_iff] at hcon
      have hperm := List.mergeSort_perm bonds bondLe
      rw [hcon] at hperm
      exact hne hperm.symm.eq_nil
    have htake : tenors.take i ≠ [] := by
      intro hcon
      rcases List.take_eq_nil_iff.mp hcon with h' | h'
      · omega
      · exact htnil h'
    have heq := priceWithRate_eq_claim
      ((bonds.mergeSort bondLe).getD i dummyBond).maturity
      ((bonds.mergeSort bondLe).getD i dummyBond).coupon (rates.getD i 0)
      ((bonds.mergeSort bondLe).getD i dummyBond).frequency k
      ((bonds.mergeSort bondLe).getD i dummyBond).faceValue
      (tenors.take i) (rates.take i) hk hf hmk htake
    unfold bondObjective at hobj
    rw [← heq]
    linarith [hobj]

/-- A one-year zero-coupon bond priced exactly at rate 5 percent
under the recursive bootstrapper's pricing. -/
def bondA : Bond := { maturity := 1, coupon := 0, price := 2000/21, frequency := 2 }

/-- An annual 10 percent coupon bond of maturity 1.5 years: its
round(maturity * frequency) = 2 coupon periods put the final cash
flow at tenor 2, beyond the bond's own maturity. -/
def bondB : Bond := { maturity := 3/2, coupon := 1/10, price := 2125/21, frequency := 1 }

/-- An annual 10 percent coupon bond of maturity 2 years whose
schedule is an integral number of coupon periods. -/
def bondC : Bond := { maturity := 2, coupon := 1/10, price := 2125/21, frequency := 1 }

/-- C1 counterexample: on the book of bondA then bondB (maturity
1.5 years, annual coupons), the code's solved rates reprice each bond
exactly, yet the pricing rule the claim describes does not: with
round(1.5 * 1) = 2 periods, bondB's final cash flow falls at tenor 2,
not at its maturity 1.5, so the claimed identity fails at the code's
own solution. -/
theorem bondBootstrap_maturity_mismatch_cex :
    IsBootstrapResult [bondA, bondB] [1, 3/2] [1/20, 1/10] ∧
    priceClaimC1 bondB.maturity bondB.coupon (1/10) bondB.frequency
      bondB.faceValue [1] [1/20] ≠ bondB.price := by
  have hsorted : [bondA, bondB].mergeSort bondLe = [bondA, bondB] :=
    List.mergeSort_of_sorted (by norm_num [List.pairwise_cons, bondLe, bondA, bondB])
  constructor
  · refine ⟨by simp, ?_, by rw [hsorted]; rfl, rfl, ?_⟩
    · intro b hb
      rcases List.mem_cons.mp hb with rfl | hb2
      · norm_num [bondA]
      · rcases List.mem_singleton.mp hb2 with rfl
        norm_num [bondB]
    · intro i hi
      rw [hsorted]
      simp only [List.length_cons, List.length_nil] at hi
      interval_cases i
      · norm_num [bondObjective, priceWithRate, bondA, pyRound, simpleDiscountFactor,
          npInterp, interpPts, show Int.toNat 2 = 2 from rfl, List.range_succ]
      · norm_num [bondObjective, priceWithRate, bondB, pyRound, simpleDiscountFactor,
          npInterp, interpPts, show Int.toNat 2 = 2 from rfl, List.range_succ]
  · norm_num [priceClaimC1, bondB, pyRound, simpleDiscountFactor, npInterp, interpPts,
      show Int.toNat 2 = 2 from rfl, List.range_succ]

/-- C1 witness: the amended statement evaluated on the book of bondA
then bondC at the exact solved rates 5 percent and 10 percent. -/
theorem bondBootstrap_recursive_pricing_witness :
    IsBootstrapResult [bondA, bondC] [1, 2] [1/20, 1/10] ∧
    1 < [bondA, bondC].length ∧ (0 : ℕ) < 1 ∧ (0 : ℕ) < 2 ∧
    bondC.maturity * (bondC.frequency : ℚ) = ((2 : ℕ) : ℚ) ∧ 0 < bondC.frequency ∧
    priceClaimC1 bondC.maturity bondC.coupon (([1/20, 1/10] : List ℚ).getD 1 0)
      bondC.frequency bondC.faceValue (([(1 : ℚ), 2]).take 1)
      (([1/20, 1/10] : List ℚ).take 1) = bondC.price := by
  have hsorted : [bondA, bondC].mergeSort bondLe = [bondA, bondC] :=
    List.mergeSort_of_sorted (by norm_num [List.pairwise_cons, bondLe, bondA, bondC])
  have h : IsBootstrapResult [bondA, bondC] [1, 2] [1/20, 1/10] := by
    refine ⟨by simp, ?_, by rw [hsorted]; rfl, rfl, ?_⟩
    · intro b hb
      rcases List.mem_cons.mp hb with rfl | hb2
      · norm_num [bondA]
      · rcases List.mem_singleton.mp hb2 with rfl
        norm_num [bondC]
    · intro i hi
      rw [hsorted]
      simp only [List.length_cons, List.length_nil] at hi
      interval_cases i
      · norm_num [bondObjective, priceWithRate, bondA, pyRound, simpleDiscountFactor,
          npInterp, interpPts, show Int.toNat 2 = 2 from rfl, List.range_succ]
      · norm_num [bondObjective, priceWithRate, bondC, pyRound, simpleDiscountFactor,
          npInterp, interpPts, show Int.toNat 2 = 2 from rfl, List.range_succ]
  have hconc := (bondBootstrap_recursive_pricing [bondA, bondC] [1, 2] [1/20, 1/10] h).2
    1 (by norm_num) (by norm_num) 2 (by norm_num)
    (by rw [hsorted]; norm_num [bondC])
    (by rw [hsorted]; norm_num [bondC])
  rw [hsorted] at hconc
  exact ⟨h, by norm_num, by norm_num, by norm_num, by norm_num [bondC],
    by norm_num [bondC], hconc⟩

end Quants
